import Mathlib

/-!
Shallow embedding of the eotel telemetry-correlation handle (repository
nicedev97/eotel-v2) and proofs about the frozen claims.

The repository contains two near-duplicate handle files; the spec collapses
them into one component.  The embedding below follows the guarded handle
implementation in src/unnamed/part_001 (the variant the spec describes:
Noop fallback, empty-key guard in WithField, exporter nil-guard in
WithError, SetStatus on recorded errors), together with src/config.go,
src/sentry.go (CaptureError) and src/loki.go (sendLoki).

Modelling conventions:
- Go interface-typed collaborators (tracer, logger, meter+instruments,
  exporter) are modelled by presence booleans: `true` = non-nil interface.
  Calling a method on a nil interface value is a Go runtime panic; the
  embedding returns `Except.error` at exactly those call sites
  (the only such unguarded site in part_001 is `l.tracer.Start` inside
  `startSpanIfNeeded`).
- `error` values are modelled by their `Error()` strings, a nil error by
  `Option.none`.
- `context.Context` is modelled by the data the code reads from it: the
  span context it carries (`Option SpanCtx`); the handle stored under
  `loggerCtxKey` is passed separately where needed.
- Span handles are ids into an explicit span store `Sim`; per the
  OpenTelemetry SDK contract, mutations of an ended span are ignored and
  `End` is idempotent.
- Wall-clock time is the store's `now` field (milliseconds); `time.Now()`
  at handle creation is an explicit argument.
- `sort.SliceStable` with the comparator `attrs[i].Key < attrs[j].Key` is a
  stable sort by key; it is modelled by the (stable) `List.insertionSort`
  with the reflexive key order, which produces the same list.
- Observable calls to collaborators (log line, loki Send, sentry capture,
  metric updates, request abort) are collected in an `Effect` list.
-/

namespace EotelSpec

/-- A Go value passed to WithField (zap.Any);  rendered with fmt.Sprintf. -/
inductive GoVal where
  | str (s : String)
  | int (n : Int)
  | boolean (b : Bool)
deriving Repr, DecidableEq

/-- fmt.Sprintf of a value, as used by attribute.String(key, fmt.Sprintf(value)). -/
def GoVal.render : GoVal → String
  | .str s => s
  | .int n => toString n
  | .boolean b => if b then "true" else "false"

/-- Span attribute values: attribute.String or attribute.Float64 (duration). -/
inductive AttrVal where
  | str (s : String)
  | float (n : Nat)
deriving Repr, DecidableEq

/-- A span attribute (attribute.KeyValue). -/
abbrev Attr := String × AttrVal

/-- A structured log field (zap.Field): key and raw value. -/
abbrev LogField := String × GoVal

/-- trace.SpanContext: the pair of identifiers correlating a span to its trace. -/
structure SpanCtx where
  traceId : Nat
  spanId : Nat
deriving Repr, DecidableEq

/-- The recorded state of one span in the span store. -/
structure SpanRec where
  sc : SpanCtx
  name : String
  attrs : List Attr
  errs : List String
  statusErr : Option String
  ended : Bool
deriving Repr, DecidableEq

/-- The span store plus id allocator and clock. -/
structure Sim where
  nextTraceId : Nat
  nextSpanId : Nat
  spans : List SpanRec
  now : Nat
deriving Repr, DecidableEq

def Sim.find (sim : Sim) (sid : Nat) : Option SpanRec :=
  sim.spans.find? (fun r => decide (r.sc.spanId = sid))

def Sim.update (sim : Sim) (sid : Nat) (f : SpanRec → SpanRec) : Sim :=
  { sim with spans := sim.spans.map (fun r => if r.sc.spanId = sid then f r else r) }

/-- span.SetAttributes: appends attributes; ignored once the span has ended. -/
def Sim.setAttributes (sim : Sim) (sid : Nat) (as : List Attr) : Sim :=
  sim.update sid (fun r => if r.ended then r else { r with attrs := r.attrs ++ as })

/-- span.RecordError: ignored once the span has ended. -/
def Sim.recordError (sim : Sim) (sid : Nat) (e : String) : Sim :=
  sim.update sid (fun r => if r.ended then r else { r with errs := r.errs ++ [e] })

/-- span.SetStatus(codes.Error, description): ignored once the span has ended. -/
def Sim.setStatus (sim : Sim) (sid : Nat) (e : String) : Sim :=
  sim.update sid (fun r => if r.ended then r else { r with statusErr := some e })

/-- span.End: marks the span ended (idempotent). -/
def Sim.endSpanRec (sim : Sim) (sid : Nat) : Sim :=
  sim.update sid (fun r => { r with ended := true })

/-- tracer.Start(ctx, name): a fresh span; its trace id comes from the span
context carried by ctx, or is fresh when ctx carries none. -/
def tracerStart (sim : Sim) (ctxSpan : Option SpanCtx) (name : String) :
    SpanCtx × Sim :=
  match ctxSpan with
  | some p =>
    let sc : SpanCtx := ⟨p.traceId, sim.nextSpanId⟩
    (sc, { sim with nextSpanId := sim.nextSpanId + 1,
                    spans := sim.spans ++ [⟨sc, name, [], [], none, false⟩] })
  | none =>
    let sc : SpanCtx := ⟨sim.nextTraceId, sim.nextSpanId⟩
    (sc, { sim with nextTraceId := sim.nextTraceId + 1,
                    nextSpanId := sim.nextSpanId + 1,
                    spans := sim.spans ++ [⟨sc, name, [], [], none, false⟩] })

/-- src/config.go: the process-wide configuration struct. -/
structure Config where
  ServiceName : String
  JobName : String
  OtelCollector : String
  EnableTracing : Bool
  EnableMetrics : Bool
  EnableSentry : Bool
  EnableLoki : Bool
  SentryDSN : String
  LokiURL : String
deriving Repr, DecidableEq

/-- The correlation handle (struct Eotel of src/unnamed/part_001).
Interface fields are presence booleans; `ctx` is the span context carried
by the handle's context.Context. -/
structure Eotel where
  ctx : Option SpanCtx
  logger : Bool
  tracer : Bool
  meter : Bool
  span : Option Nat
  fields : List LogField
  attrs : List Attr
  err : Option String
  name : String
  start : Nat
  exporter : Bool
deriving Repr, DecidableEq

/-- Observable calls made to the external collaborators. -/
inductive Effect where
  | spanStarted (sc : SpanCtx)
  | logLine (level msg : String) (fields : List LogField)
  | lokiSend (level msg : String) (traceId spanId : Nat)
  | sentryCapture (e : String)
  | counterAdd (level : String)
  | histRecord (level : String)
  | processExit
  | abortJSON (status : Nat) (msg : String)
deriving Repr, DecidableEq

/-- New(ctx, name): fresh handle; note that the exporter field is nil. -/
def New (ctx : Option SpanCtx) (name : String) (now : Nat) : Eotel :=
  { ctx := ctx, logger := true, tracer := true, meter := true,
    span := none, fields := [], attrs := [], err := none,
    name := name, start := now, exporter := false }

/-- Noop(name): fallback handle with a background context, a no-op (but
non-nil) zap logger, and zero values everywhere else — in particular a
nil tracer, nil meter and nil exporter. -/
def Noop (name : String) (now : Nat) : Eotel :=
  { ctx := none, logger := true, tracer := false, meter := false,
    span := none, fields := [], attrs := [], err := none,
    name := name, start := now, exporter := false }

/-- FromContext(ctx, name): the handle stored in the context if any,
otherwise the Noop fallback (the source comments this "fallback safe"). -/
def FromContext (stored : Option Eotel) (name : String) (now : Nat) : Eotel :=
  match stored with
  | some lg => lg
  | none => Noop name now

/-- Safe(l): replaces a nil handle by a Noop one. -/
def Safe (l : Option Eotel) (now : Nat) : Eotel :=
  match l with
  | some x => x
  | none => Noop "safe" now

/-- WithField(key, value): appends to both accumulators; no-op on an empty key. -/
def Eotel.WithField (l : Eotel) (key : String) (value : GoVal) : Eotel :=
  if key = "" then l
  else { l with fields := l.fields ++ [(key, value)],
                attrs := l.attrs ++ [(key, AttrVal.str value.render)] }

/-- WithFields(m): WithField for each entry; Go map iteration order is
unspecified, so the entries are taken as an arbitrary list. -/
def Eotel.WithFields (l : Eotel) (m : List (String × GoVal)) : Eotel :=
  m.foldl (fun acc kv => acc.WithField kv.1 kv.2) l

/-- src/sentry.go CaptureError: forwards to the backend only for a non-nil
error and only when error reporting is globally enabled. -/
def CaptureError (cfg : Config) (e : Option String) : List Effect :=
  match e with
  | none => []
  | some s => if cfg.EnableSentry then [Effect.sentryCapture s] else []

/-- WithError(err): on a non-nil error records it, appends the error
field/attribute, and calls the exporter's CaptureError only when the
exporter is non-nil. -/
def Eotel.WithError (cfg : Config) (l : Eotel) (e : Option String) :
    Eotel × List Effect :=
  match e with
  | none => (l, [])
  | some s =>
    ({ l with err := some s,
              fields := l.fields ++ [("error", GoVal.str s)],
              attrs := l.attrs ++ [("error", AttrVal.str s)] },
     if l.exporter then CaptureError cfg (some s) else [])

/-- The Go runtime panic raised by a method call on a nil interface value. -/
def nilTracerPanic : String :=
  "runtime error: invalid memory address or nil pointer dereference"

/-- startSpanIfNeeded: starts the span on first use; the span-attached
context replaces the handle's context.  On a nil tracer the call
tracer.Start is a runtime panic. -/
def Eotel.startSpanIfNeeded (l : Eotel) (sim : Sim) :
    Except String (Eotel × Sim × List Effect) :=
  match l.span with
  | some _ => .ok (l, sim, [])
  | none =>
    if l.tracer then
      let r := tracerStart sim l.ctx l.name
      .ok ({ l with ctx := some r.1, span := some r.1.spanId }, r.2,
           [Effect.spanStarted r.1])
    else
      .error nilTracerPanic

/-- Lexicographic comparison of character lists by code point.  Go compares
strings byte-wise in UTF-8, and UTF-8 byte order coincides with code-point
order, so this is exactly the Go string order used by the comparator in
endSpan. -/
def charsLeb : List Char → List Char → Bool
  | [], _ => true
  | _ :: _, [] => false
  | a :: as, b :: bs =>
    if a.toNat < b.toNat then true
    else if b.toNat < a.toNat then false
    else charsLeb as bs

/-- The key order used by the sort in endSpan: Go string order on the keys. -/
def keyLE (a b : Attr) : Prop := charsLeb a.1.data b.1.data = true

instance : DecidableRel keyLE :=
  fun a b => inferInstanceAs (Decidable (charsLeb a.1.data b.1.data = true))

/-- The three attributes synthesized by endSpan. -/
def synthAttrs (msg level : String) (dur : Nat) : List Attr :=
  [("log.message", AttrVal.str msg),
   ("log.level", AttrVal.str level),
   ("duration_ms", AttrVal.float dur)]

/-- The attribute list produced by endSpan: accumulated attributes plus the
three synthesized ones, stably sorted by key (sort.SliceStable). -/
def flushAttrs (attrs : List Attr) (msg level : String) (dur : Nat) : List Attr :=
  List.insertionSort keyLE (attrs ++ synthAttrs msg level dur)

/-- endSpan(msg, level): appends the synthesized attributes, sorts stably by
key, flushes onto the span, records the retained error (status + error
event) when present, ends the span, and updates the metrics when the meter
is non-nil. -/
def Eotel.endSpan (l : Eotel) (sim : Sim) (msg level : String) :
    Eotel × Sim × List Effect :=
  let durationMs := sim.now - l.start
  let sorted := flushAttrs l.attrs msg level durationMs
  let l' := { l with attrs := sorted }
  let sim' :=
    match l.span with
    | none => sim
    | some sid =>
      let s1 := sim.setAttributes sid sorted
      let s2 :=
        match l.err with
        | some e => (s1.setStatus sid e).recordError sid e
        | none => s1
      s2.endSpanRec sid
  let meffs := if l.meter then [Effect.counterAdd level, Effect.histRecord level]
               else []
  (l', sim', meffs)

/-- The five severity levels of the switch in log. -/
def knownLevel (level : String) : Bool :=
  level = "info" || level = "error" || level = "debug" || level = "warn" ||
    level = "fatal"

/-- The part of log after the span exists: read the span context, emit the
structured line, conditionally send to loki, then endSpan. -/
def Eotel.logCore (cfg : Config) (level msg : String) (l1 : Eotel) (sim1 : Sim) :
    Eotel × Sim × List Effect :=
  let sc : SpanCtx :=
    match l1.span with
    | some sid =>
      match sim1.find sid with
      | some r => r.sc
      | none => ⟨0, 0⟩
    | none => ⟨0, 0⟩
  let lineFields : List LogField :=
    [("trace_id", GoVal.str (toString sc.traceId)),
     ("span_id", GoVal.str (toString sc.spanId)),
     ("job", GoVal.str cfg.JobName),
     ("service", GoVal.str cfg.ServiceName),
     ("level", GoVal.str level)] ++ l1.fields
  let logEffs := if l1.logger then
      (if knownLevel level then [Effect.logLine level msg lineFields] else [])
    else []
  let lokiEffs := if cfg.EnableLoki && l1.exporter then
      [Effect.lokiSend level msg sc.traceId sc.spanId]
    else []
  let r2 := l1.endSpan sim1 msg level
  (r2.1, r2.2.1, logEffs ++ lokiEffs ++ r2.2.2)

/-- log(level, msg): the full logging protocol of one severity call. -/
def Eotel.log (cfg : Config) (level msg : String) (l : Eotel) (sim : Sim) :
    Except String (Eotel × Sim × List Effect) :=
  match l.startSpanIfNeeded sim with
  | .error p => .error p
  | .ok (l1, sim1, effs1) =>
    let r := l1.logCore cfg level msg sim1
    .ok (r.1, r.2.1, effs1 ++ r.2.2)

/-- Child(name): fork a child handle: fresh span from the parent's context
(with a tracer fallback when the parent's tracer is nil), empty
accumulators, own start time, inherited logger, meter, instruments and
exporter. -/
def Eotel.Child (l : Eotel) (name : String) (sim : Sim) (now : Nat) :
    Eotel × Sim :=
  let r := tracerStart sim l.ctx name
  ({ ctx := some r.1, span := some r.1.spanId,
     logger := l.logger, tracer := true, meter := l.meter,
     fields := [], attrs := [], err := none,
     name := name, start := now, exporter := l.exporter }, r.2)

/-- RecoverPanic: the deferred recovery closure.  `stored` is the handle
carried by the request context, `reqSpan` the span carried by the request
context, `recovered` the value recovered from the panic (none = no panic). -/
def RecoverPanic (cfg : Config) (stored : Option Eotel) (reqSpan : Option SpanCtx)
    (recovered : Option String) (sim : Sim) : Except String (Sim × List Effect) :=
  match recovered with
  | none => .ok (sim, [])
  | some rv =>
    let err := "panic: " ++ rv
    let lg := Safe (some (FromContext stored "panic" sim.now)) sim.now
    let wr := lg.WithError cfg (some err)
    match (wr.1).log cfg "error" "unhandled panic" sim with
    | .error p => .error p
    | .ok (_, sim1, effs2) =>
      let sim2 :=
        match reqSpan with
        | some p => (sim1.recordError p.spanId err).setStatus p.spanId err
        | none => sim1
      .ok (sim2, wr.2 ++ effs2 ++ [Effect.abortJSON 500 "internal server error"])

/-- src/loki.go LokiEntry. -/
structure LokiEntry where
  Labels : List (String × String)
  Message : String
deriving Repr, DecidableEq

/-- The HTTP push sendLoki would perform. -/
structure HttpPost where
  url : String
  streamLabels : List (String × String)
  tsNanos : Nat
  message : String
deriving Repr, DecidableEq

/-- src/loki.go sendLoki: drops the entry without any network send when
remote log export is disabled; otherwise posts it to the configured URL. -/
def sendLoki (cfg : Config) (now : Nat) (entry : LokiEntry) : Option HttpPost :=
  if !cfg.EnableLoki then none
  else some { url := cfg.LokiURL, streamLabels := entry.Labels,
              tsNanos := now, message := entry.Message }

/-- A fixed all-disabled configuration for concrete runs. -/
def cfg0 : Config :=
  { ServiceName := "svc", JobName := "job", OtelCollector := "oc",
    EnableTracing := false, EnableMetrics := false, EnableSentry := false,
    EnableLoki := false, SentryDSN := "", LokiURL := "" }

/-- An empty span store with clock zero. -/
def sim00 : Sim := ⟨0, 0, [], 0⟩

/-- Run a sequence of logging calls on one handle, collecting effects and
stopping at the first panic. -/
def runLogs (cfg : Config) :
    List (String × String) → Eotel → Sim → (Except String Eotel) × Sim × List Effect
  | [], l, sim => (.ok l, sim, [])
  | (lv, m) :: rest, l, sim =>
    match l.log cfg lv m sim with
    | .error p => (.error p, sim, [])
    | .ok (l', sim', effs) =>
      let r := runLogs cfg rest l' sim'
      (r.1, r.2.1, effs ++ r.2.2)

/-- The span field of the handle a run ended with (none after a panic). -/
def resultSpan : Except String Eotel → Option (Option Nat)
  | .ok l => some l.span
  | .error _ => none

def isStart : Effect → Bool
  | .spanStarted _ => true
  | _ => false

/-- How many spans a list of effects starts. -/
def countStarts (effs : List Effect) : Nat := (effs.filter isStart).length

def isLokiSend : Effect → Bool
  | .lokiSend _ _ _ _ => true
  | _ => false

/-- The trace id tracer.Start picks when the context carries `c`. -/
def ctxTid : Option SpanCtx → Nat → Nat
  | some p, _ => p.traceId
  | none, tN => tN

/-- The next fresh trace id after tracer.Start. -/
def ctxNextT : Option SpanCtx → Nat → Nat
  | some _, tN => tN
  | none, tN => tN + 1

/-- The handle state after a first logging call on a fresh span store. -/
def freshHandle (l : Eotel) (tN sN now : Nat) (lv m : String) : Eotel :=
  { l with ctx := some ⟨ctxTid l.ctx tN, sN⟩, span := some sN,
           attrs := flushAttrs l.attrs m lv (now - l.start) }

/-- The span record after a first logging call on a fresh span store. -/
def freshRec (l : Eotel) (tN sN now : Nat) (lv m : String) : SpanRec :=
  ⟨⟨ctxTid l.ctx tN, sN⟩, l.name, flushAttrs l.attrs m lv (now - l.start),
   l.err.toList, l.err, true⟩

/-- The span store after a first logging call on a fresh span store. -/
def freshSim (l : Eotel) (tN sN now : Nat) (lv m : String) : Sim :=
  ⟨ctxNextT l.ctx tN, sN + 1, [freshRec l tN sN now lv m], now⟩

/-- The effects of a first logging call on a fresh span store. -/
def freshEffs (cfg : Config) (l : Eotel) (tN sN : Nat) (lv m : String) : List Effect :=
  [Effect.spanStarted ⟨ctxTid l.ctx tN, sN⟩]
  ++ (if l.logger then
        (if knownLevel lv then
          [Effect.logLine lv m
            ([("trace_id", GoVal.str (toString (ctxTid l.ctx tN))),
              ("span_id", GoVal.str (toString sN)),
              ("job", GoVal.str cfg.JobName),
              ("service", GoVal.str cfg.ServiceName),
              ("level", GoVal.str lv)] ++ l.fields)]
         else [])
      else [])
  ++ (if cfg.EnableLoki && l.exporter then
        [Effect.lokiSend lv m (ctxTid l.ctx tN) sN]
      else [])
  ++ (if l.meter then [Effect.counterAdd lv, Effect.histRecord lv] else [])

/-- Claim C1 (amended): what the first logging call flushes to the span —
sorted by key, exactly the accumulated attributes plus the three
synthesized ones, keys duplicate-free when the inputs are, span ended, and
any later logging call leaves the flushed attributes unchanged. -/
def C1Post (cfg : Config) (lv m : String) (l : Eotel) (tN sN now : Nat) : Prop :=
  ∃ l' sim' effs r,
    l.log cfg lv m ⟨tN, sN, [], now⟩ = Except.ok (l', sim', effs)
    ∧ sim'.find sN = some r
    ∧ r.attrs = flushAttrs l.attrs m lv (now - l.start)
    ∧ List.Sorted keyLE r.attrs
    ∧ List.Perm r.attrs (l.attrs ++ synthAttrs m lv (now - l.start))
    ∧ (((l.attrs ++ synthAttrs m lv (now - l.start)).map Prod.fst).Nodup →
        (r.attrs.map Prod.fst).Nodup)
    ∧ r.ended = true
    ∧ (∀ lv2 m2, ∃ l2 sim2 effs2,
        l'.log cfg lv2 m2 sim' = Except.ok (l2, sim2, effs2)
        ∧ (sim2.find sN).map SpanRec.attrs = some r.attrs)

/-- Claim C6: after the first logging call, the span's status is errored
(and the error attached) exactly when an error had been recorded with
WithError; the logging level plays no role. -/
def C6Post (cfg : Config) (lv m : String) (l : Eotel) (tN sN now : Nat) : Prop :=
  ∃ l' sim' effs r,
    l.log cfg lv m ⟨tN, sN, [], now⟩ = Except.ok (l', sim', effs)
    ∧ sim'.find sN = some r
    ∧ (r.statusErr.isSome ↔ l.err.isSome)
    ∧ r.statusErr = l.err
    ∧ r.errs = l.err.toList
    ∧ (l.err = none → r.statusErr = none)

/-- Claim C5 (amended): the child handle is exactly a fresh-span fork —
empty accumulators, own start time, inherited logger, meter and exporter,
a new span id, and the parent's trace id. -/
def C5Post (l : Eotel) (name : String) (sim : Sim) (now : Nat)
    (p : SpanCtx) (ps : Nat) : Prop :=
  ∃ sc : SpanCtx,
    (l.Child name sim now).1 =
      { ctx := some sc, span := some sc.spanId, logger := l.logger,
        tracer := true, meter := l.meter, fields := [], attrs := [],
        err := none, name := name, start := now, exporter := l.exporter }
    ∧ sc.traceId = p.traceId
    ∧ sc.spanId = sim.nextSpanId
    ∧ sc.spanId ≠ ps

/-- A handle that accumulated the same key twice (input of the C1
counterexample). -/
def c1DupHandle : Eotel :=
  ((New none "checkout" 0).WithField "a" (GoVal.int 1)).WithField "a" (GoVal.int 2)

/-- The keys the C1 counterexample run flushes to its span. -/
def c1DupKeys : List String :=
  match c1DupHandle.log cfg0 "info" "start" ⟨0, 0, [], 5⟩ with
  | .ok (_, sim', _) =>
    match sim'.find 0 with
    | some r => r.attrs.map Prod.fst
    | none => []
  | .error _ => []

/-- The scenario handle of the spec (C1 witness input). -/
def c1Handle : Eotel :=
  ((New none "checkout" 0).WithField "user_id" (GoVal.int 42)).WithField
    "cart_size" (GoVal.int 3)

/-- A handle whose span is already started (C2 witness input). -/
def c2Handle : Eotel := { New none "w" 0 with span := some 7 }

/-- A handle with a recorded error (C6 witness input). -/
def c6Handle : Eotel := ((New none "payment" 0).WithError cfg0 (some "declined")).1

/-- A handle whose span has started (C5 witness input). -/
def c5W : Eotel := { New none "checkout" 0 with ctx := some ⟨3, 4⟩, span := some 4 }

/-- The parent handle of the C5 counterexample. -/
def c5Parent : Eotel := New none "checkout" 0

/-- The span context of the child forked before the parent's span started. -/
def c5ChildCtx : Option SpanCtx :=
  ((c5Parent.Child "payment" ⟨0, 0, [], 5⟩ 5).1).ctx

/-- The parent's own span context once the parent logs after the fork. -/
def c5ParentCtxAfterLog : Option SpanCtx :=
  match c5Parent.log cfg0 "info" "go" (c5Parent.Child "payment" ⟨0, 0, [], 5⟩ 5).2 with
  | .ok (l', _, _) => l'.ctx
  | .error _ => none

/-- A loki entry (C8 witness input). -/
def c8Entry : LokiEntry := ⟨[("job", "job")], "hello"⟩

/-! ### Properties of the key order -/

theorem charsLeb_cons_iff (a b : Char) (as bs : List Char) :
    charsLeb (a :: as) (b :: bs) = true ↔
      (a.toNat < b.toNat ∨ (a.toNat = b.toNat ∧ charsLeb as bs = true)) := by
  simp only [charsLeb]
  split_ifs with h1 h2
  · simp [h1]
  · constructor
    · intro h; simp at h
    · rintro (h | ⟨h, -⟩) <;> omega
  · have heq : a.toNat = b.toNat := by omega
    simp [heq]

theorem charsLeb_total : ∀ x y : List Char, charsLeb x y = true ∨ charsLeb y x = true
  | [], _ => Or.inl rfl
  | _ :: _, [] => Or.inr rfl
  | a :: as, b :: bs => by
    rcases Nat.lt_trichotomy a.toNat b.toNat with h | h | h
    · exact Or.inl ((charsLeb_cons_iff a b as bs).mpr (Or.inl h))
    · rcases charsLeb_total as bs with ih | ih
      · exact Or.inl ((charsLeb_cons_iff a b as bs).mpr (Or.inr ⟨h, ih⟩))
      · exact Or.inr ((charsLeb_cons_iff b a bs as).mpr (Or.inr ⟨h.symm, ih⟩))
    · exact Or.inr ((charsLeb_cons_iff b a bs as).mpr (Or.inl h))

theorem charsLeb_trans : ∀ x y z : List Char,
    charsLeb x y = true → charsLeb y z = true → charsLeb x z = true
  | [], _, _, _, _ => rfl
  | _ :: _, [], _, hxy, _ => by simp [charsLeb] at hxy
  | _ :: _, _ :: _, [], _, hyz => by simp [charsLeb] at hyz
  | a :: as, b :: bs, c :: cs, hxy, hyz => by
    rcases (charsLeb_cons_iff a b as bs).mp hxy with h1 | ⟨h1, t1⟩ <;>
      rcases (charsLeb_cons_iff b c bs cs).mp hyz with h2 | ⟨h2, t2⟩
    · exact (charsLeb_cons_iff a c as cs).mpr (Or.inl (Nat.lt_trans h1 h2))
    · exact (charsLeb_cons_iff a c as cs).mpr (Or.inl (h2 ▸ h1))
    · exact (charsLeb_cons_iff a c as cs).mpr (Or.inl (h1 ▸ h2))
    · exact (charsLeb_cons_iff a c as cs).mpr
        (Or.inr ⟨h1.trans h2, charsLeb_trans as bs cs t1 t2⟩)

instance : IsTotal Attr keyLE := ⟨fun a b => charsLeb_total a.1.data b.1.data⟩

instance : IsTrans Attr keyLE :=
  ⟨fun a b c hab hbc => charsLeb_trans a.1.data b.1.data c.1.data hab hbc⟩

/-! ### Structural lemmas about one logging call -/

theorem tracerStart_spanId (sim : Sim) (c : Option SpanCtx) (n : String) :
    (tracerStart sim c n).1.spanId = sim.nextSpanId := by
  cases c <;> rfl

theorem endSpan_fst (l : Eotel) (sim : Sim) (m lv : String) :
    (l.endSpan sim m lv).1 =
      { l with attrs := flushAttrs l.attrs m lv (sim.now - l.start) } := rfl

theorem logCore_span (cfg : Config) (lv m : String) (l1 : Eotel) (sim1 : Sim) :
    (l1.logCore cfg lv m sim1).1.span = l1.span := rfl

theorem logCore_err (cfg : Config) (lv m : String) (l1 : Eotel) (sim1 : Sim) :
    (l1.logCore cfg lv m sim1).1.err = l1.err := rfl

theorem countStarts_append (a b : List Effect) :
    countStarts (a ++ b) = countStarts a + countStarts b := by
  simp [countStarts, List.filter_append]

theorem logCore_starts (cfg : Config) (lv m : String) (l1 : Eotel) (sim1 : Sim) :
    countStarts (l1.logCore cfg lv m sim1).2.2 = 0 := by
  cases hL : l1.logger <;> cases hK : knownLevel lv <;>
    cases hLok : cfg.EnableLoki && l1.exporter <;> cases hM : l1.meter <;>
    simp [Eotel.logCore, Eotel.endSpan, hL, hK, hLok, hM, countStarts, isStart]

theorem log_span_some_eq (cfg : Config) (lv m : String) (l : Eotel) (sim : Sim)
    (sid : Nat) (h : l.span = some sid) :
    l.log cfg lv m sim =
      Except.ok ((l.logCore cfg lv m sim).1, (l.logCore cfg lv m sim).2.1,
                 (l.logCore cfg lv m sim).2.2) := by
  simp [Eotel.log, Eotel.startSpanIfNeeded, h]

theorem log_span_some (cfg : Config) (lv m : String) (l : Eotel) (sim : Sim)
    (sid : Nat) (h : l.span = some sid) :
    ∃ l' sim' effs, l.log cfg lv m sim = Except.ok (l', sim', effs)
      ∧ l'.span = some sid ∧ countStarts effs = 0 := by
  refine ⟨_, _, _, log_span_some_eq cfg lv m l sim sid h, ?_, ?_⟩
  · rw [logCore_span, h]
  · exact logCore_starts cfg lv m l sim

theorem log_span_none_ok (cfg : Config) (lv m : String) (l : Eotel) (sim : Sim)
    (htr : l.tracer = true) (hsp : l.span = none) :
    ∃ l' sim' effs, l.log cfg lv m sim = Except.ok (l', sim', effs)
      ∧ l'.span = some sim.nextSpanId ∧ countStarts effs = 1 := by
  simp only [Eotel.log, Eotel.startSpanIfNeeded, hsp, htr, if_true]
  refine ⟨_, _, _, rfl, ?_, ?_⟩
  · rw [logCore_span]
    simp [tracerStart_spanId]
  · rw [countStarts_append, logCore_starts]
    simp [countStarts, isStart]

theorem log_span_none_panic (cfg : Config) (lv m : String) (l : Eotel) (sim : Sim)
    (htr : l.tracer = false) (hsp : l.span = none) :
    l.log cfg lv m sim = Except.error nilTracerPanic := by
  simp [Eotel.log, Eotel.startSpanIfNeeded, hsp, htr]

/-! ### Lemmas about whole logging runs -/

theorem runLogs_starts (cfg : Config) :
    ∀ (calls : List (String × String)) (l : Eotel) (sim : Sim),
      countStarts (runLogs cfg calls l sim).2.2 ≤ (if l.span.isSome then 0 else 1) := by
  intro calls
  induction calls with
  | nil =>
    intro l sim
    simp only [runLogs, countStarts, List.filter_nil, List.length_nil]
    omega
  | cons hd tl ih =>
    intro l sim
    obtain ⟨lv, m⟩ := hd
    cases hsp : l.span with
    | some sid =>
      obtain ⟨l', sim', effs, heq, hspan', hcnt⟩ := log_span_some cfg lv m l sim sid hsp
      have h2 := ih l' sim'
      rw [hspan'] at h2
      simp only [runLogs, heq, countStarts_append, hcnt, hsp]
      simp only [Option.isSome_some, if_true] at h2 ⊢
      omega
    | none =>
      cases htr : l.tracer with
      | true =>
        obtain ⟨l', sim', effs, heq, hspan', hcnt⟩ :=
          log_span_none_ok cfg lv m l sim htr hsp
        have h2 := ih l' sim'
        rw [hspan'] at h2
        simp only [runLogs, heq, countStarts_append, hcnt, hsp]
        simp only [Option.isSome_some, if_true] at h2
        simp only [Option.isSome_none, Bool.false_eq_true, if_false]
        omega
      | false =>
        simp [runLogs, log_span_none_panic cfg lv m l sim htr hsp, countStarts]

theorem runLogs_preserve (cfg : Config) :
    ∀ (calls : List (String × String)) (l : Eotel) (sim : Sim) (sid : Nat),
      l.span = some sid →
      resultSpan (runLogs cfg calls l sim).1 = some (some sid) := by
  intro calls
  induction calls with
  | nil => intro l sim sid h; simp [runLogs, resultSpan, h]
  | cons hd tl ih =>
    intro l sim sid h
    obtain ⟨lv, m⟩ := hd
    obtain ⟨l', sim', effs, heq, hspan', -⟩ := log_span_some cfg lv m l sim sid h
    simp only [runLogs, heq]
    exact ih l' sim' sid hspan'

/-- C2: across any sequence of logging calls on one handle, at most one span
is ever started, and once the span exists every later call keeps that same
span. -/
theorem c2_at_most_one_span (cfg : Config) (calls : List (String × String))
    (l : Eotel) (sim : Sim) :
    countStarts (runLogs cfg calls l sim).2.2 ≤ 1
    ∧ (∀ sid, l.span = some sid →
        resultSpan (runLogs cfg calls l sim).1 = some (some sid)) := by
  constructor
  · refine le_trans (runLogs_starts cfg calls l sim) ?_
    cases l.span <;> simp
  · intro sid h
    exact runLogs_preserve cfg calls l sim sid h

/-- C2 witness: a concrete two-call run on a handle whose span is 7. -/
theorem c2_witness :
    countStarts (runLogs cfg0 [("info", "a"), ("error", "b")] c2Handle sim00).2.2 ≤ 1
    ∧ resultSpan (runLogs cfg0 [("info", "a"), ("error", "b")] c2Handle sim00).1 =
        some (some 7) :=
  ⟨(c2_at_most_one_span cfg0 [("info", "a"), ("error", "b")] c2Handle sim00).1,
   (c2_at_most_one_span cfg0 [("info", "a"), ("error", "b")] c2Handle sim00).2 7 rfl⟩

/-! ### Remote log export disabled (C8) -/

theorem logCore_no_loki (cfg : Config) (lv m : String) (l1 : Eotel) (sim1 : Sim)
    (hl : cfg.EnableLoki = false) :
    (l1.logCore cfg lv m sim1).2.2.filter isLokiSend = [] := by
  cases hL : l1.logger <;> cases hK : knownLevel lv <;> cases hM : l1.meter <;>
    simp [Eotel.logCore, Eotel.endSpan, hL, hK, hM, hl, isLokiSend]

theorem log_no_loki (cfg : Config) (lv m : String) (l : Eotel) (sim : Sim)
    (l' : Eotel) (sim' : Sim) (effs : List Effect) (hl : cfg.EnableLoki = false)
    (h : l.log cfg lv m sim = Except.ok (l', sim', effs)) :
    effs.filter isLokiSend = [] := by
  cases hsp : l.span with
  | some sid =>
    rw [log_span_some_eq cfg lv m l sim sid hsp] at h
    rw [Except.ok.injEq, Prod.mk.injEq, Prod.mk.injEq] at h
    obtain ⟨-, -, h3⟩ := h
    rw [← h3]
    exact logCore_no_loki cfg lv m l sim hl
  | none =>
    cases htr : l.tracer with
    | false => rw [log_span_none_panic cfg lv m l sim htr hsp] at h; cases h
    | true =>
      simp only [Eotel.log, Eotel.startSpanIfNeeded, hsp, htr, if_true] at h
      rw [Except.ok.injEq, Prod.mk.injEq, Prod.mk.injEq] at h
      obtain ⟨-, -, h3⟩ := h
      rw [← h3, List.filter_append]
      rw [logCore_no_loki cfg lv m _ _ hl]
      simp [isLokiSend]

theorem runLogs_no_loki (cfg : Config) (hl : cfg.EnableLoki = false) :
    ∀ (calls : List (String × String)) (l : Eotel) (sim : Sim),
      (runLogs cfg calls l sim).2.2.filter isLokiSend = [] := by
  intro calls
  induction calls with
  | nil => intro l sim; simp [runLogs]
  | cons hd tl ih =>
    intro l sim
    obtain ⟨lv, m⟩ := hd
    cases hlog : l.log cfg lv m sim with
    | error p => simp [runLogs, hlog]
    | ok trip =>
      obtain ⟨l', sim', effs⟩ := trip
      simp only [runLogs, hlog, List.filter_append]
      rw [log_no_loki cfg lv m l sim l' sim' effs hl hlog, ih l' sim']
      rfl

/-- C8: with remote log export disabled, no logging run ever hands an entry
to the exporter's Send (so nothing is enqueued), and sendLoki performs no
network send either. -/
theorem c8_loki_disabled (cfg : Config) (calls : List (String × String))
    (l : Eotel) (sim : Sim) (entry : LokiEntry) (now : Nat)
    (hl : cfg.EnableLoki = false) :
    (runLogs cfg calls l sim).2.2.filter isLokiSend = []
    ∧ sendLoki cfg now entry = none :=
  ⟨runLogs_no_loki cfg hl calls l sim, by simp [sendLoki, hl]⟩

/-- C8 witness: a concrete run with export disabled. -/
theorem c8_witness :
    (runLogs cfg0 [("info", "x"), ("warn", "y")] (New none "w" 0) sim00).2.2.filter
        isLokiSend = []
    ∧ sendLoki cfg0 3 c8Entry = none :=
  c8_loki_disabled cfg0 [("info", "x"), ("warn", "y")] (New none "w" 0) sim00
    c8Entry 3 rfl

/-! ### The first logging call on a fresh span store (C1, C6) -/

theorem log_fresh_eq (cfg : Config) (lv m : String) (l : Eotel) (tN sN now : Nat)
    (htr : l.tracer = true) (hsp : l.span = none) :
    l.log cfg lv m ⟨tN, sN, [], now⟩ =
      Except.ok (freshHandle l tN sN now lv m, freshSim l tN sN now lv m,
                 freshEffs cfg l tN sN lv m) := by
  cases hctx : l.ctx <;> cases herr : l.err <;>
    simp [Eotel.log, Eotel.startSpanIfNeeded, tracerStart, Eotel.logCore,
          Eotel.endSpan, Sim.setAttributes, Sim.setStatus, Sim.recordError,
          Sim.endSpanRec, Sim.update, Sim.find, htr, hsp, hctx, herr,
          freshHandle, freshSim, freshRec, freshEffs, ctxTid, ctxNextT,
          flushAttrs, List.find?, Option.toList]

/-- C1 (amended): the set flushed to the span by the first logging call is
sorted by key and is exactly the accumulated attributes plus log.message,
log.level and duration_ms — duplicate-free whenever the input keys are —
and the flush takes effect exactly once per span: the span is ended by the
call, and later logging calls leave its attributes unchanged. -/
theorem c1_flush_sorted_exact (cfg : Config) (lv m : String) (l : Eotel)
    (tN sN now : Nat) (htr : l.tracer = true) (hsp : l.span = none) :
    C1Post cfg lv m l tN sN now := by
  refine ⟨freshHandle l tN sN now lv m, freshSim l tN sN now lv m,
          freshEffs cfg l tN sN lv m, freshRec l tN sN now lv m,
          log_fresh_eq cfg lv m l tN sN now htr hsp, ?_, rfl, ?_, ?_, ?_, rfl, ?_⟩
  · simp [Sim.find, freshSim, freshRec, List.find?]
  · exact List.sorted_insertionSort keyLE _
  · exact List.perm_insertionSort keyLE _
  · intro h
    have hp : ((freshRec l tN sN now lv m).attrs.map Prod.fst).Perm
        ((l.attrs ++ synthAttrs m lv (now - l.start)).map Prod.fst) :=
      (List.perm_insertionSort keyLE _).map Prod.fst
    exact hp.nodup_iff.mpr h
  · intro lv2 m2
    refine ⟨_, _, _,
      log_span_some_eq cfg lv2 m2 (freshHandle l tN sN now lv m)
        (freshSim l tN sN now lv m) sN rfl, ?_⟩
    cases herr : l.err <;>
      simp [Eotel.logCore, Eotel.endSpan, Sim.setAttributes, Sim.setStatus,
            Sim.recordError, Sim.endSpanRec, Sim.update, Sim.find,
            freshHandle, freshSim, freshRec, herr, List.find?]

/-- C1 witness: the spec's checkout scenario handle. -/
theorem c1_witness : C1Post cfg0 "info" "start" c1Handle 0 0 5 :=
  c1_flush_sorted_exact cfg0 "info" "start" c1Handle 0 0 5 rfl rfl

/-- C1 counterexample: accumulating the key "a" twice flushes an attribute
set whose keys are not duplicate-free, refuting the claim's unconditional
"no duplicate keys". -/
theorem c1_counterexample : ¬ c1DupKeys.Nodup := by decide

/-- C6: after a logging call at any severity, the span status is errored
(with the error attached) precisely when WithError had recorded an error;
a plain "error"-severity log does not set the status. -/
theorem c6_status_iff_recorded (cfg : Config) (lv m : String) (l : Eotel)
    (tN sN now : Nat) (htr : l.tracer = true) (hsp : l.span = none) :
    C6Post cfg lv m l tN sN now := by
  refine ⟨freshHandle l tN sN now lv m, freshSim l tN sN now lv m,
          freshEffs cfg l tN sN lv m, freshRec l tN sN now lv m,
          log_fresh_eq cfg lv m l tN sN now htr hsp, ?_, Iff.rfl, rfl, rfl,
          fun h => h⟩
  simp [Sim.find, freshSim, freshRec, List.find?]

/-- C6 witness: a handle with a recorded error, logged at "error" severity. -/
theorem c6_witness : C6Post cfg0 "error" "oops" c6Handle 0 0 9 :=
  c6_status_iff_recorded cfg0 "error" "oops" c6Handle 0 0 9 rfl rfl

/-- C3: WithError on a non-nil error — on every handle, including a fresh
one whose exporter is nil — records the error, appends the error field and
attribute, forwards to the error reporter exactly when an exporter is
configured and error reporting is globally enabled, and is a total
function (the embedding marks Go panics as Except.error; WithError has
none). -/
theorem c3_withError_records (cfg : Config) (l : Eotel) (s : String) :
    (l.WithError cfg (some s)).1.err = some s
    ∧ (l.WithError cfg (some s)).1.fields = l.fields ++ [("error", GoVal.str s)]
    ∧ (l.WithError cfg (some s)).1.attrs = l.attrs ++ [("error", AttrVal.str s)]
    ∧ (Effect.sentryCapture s ∈ (l.WithError cfg (some s)).2 ↔
        (l.exporter = true ∧ cfg.EnableSentry = true)) := by
  refine ⟨rfl, rfl, rfl, ?_⟩
  cases hE : l.exporter <;> cases hS : cfg.EnableSentry <;>
    simp [Eotel.WithError, CaptureError, hE, hS]

/-- C5 (amended): once the parent's span has started, Child forks a handle
with a new span in the parent's trace, empty accumulators, its own start
time, and the parent's logger, meter and exporter. -/
theorem c5_child_fork (l : Eotel) (name : String) (sim : Sim) (now : Nat)
    (p : SpanCtx) (ps : Nat) (hctx : l.ctx = some p) (_hspan : l.span = some ps)
    (hps : ps < sim.nextSpanId) : C5Post l name sim now p ps := by
  refine ⟨⟨p.traceId, sim.nextSpanId⟩, ?_, rfl, rfl, ?_⟩
  · simp [Eotel.Child, tracerStart, hctx]
  · simp
    omega

/-- C5 witness: a parent whose span 4 is open, forked in a store whose next
span id is 9. -/
theorem c5_witness : C5Post c5W "payment" ⟨9, 9, [], 5⟩ 5 ⟨3, 4⟩ 4 :=
  c5_child_fork c5W "payment" ⟨9, 9, [], 5⟩ 5 ⟨3, 4⟩ 4 rfl rfl (by decide)

/-- C5 counterexample: forking before the parent's span started puts the
child in a fresh trace (id 0); when the parent then logs, its own span
starts a different trace (id 1) — refuting the unconditional "same trace
id" part of the claim. -/
theorem c5_counterexample :
    c5ChildCtx.map SpanCtx.traceId = some 0
    ∧ c5ParentCtxAfterLog.map SpanCtx.traceId = some 1
    ∧ c5ChildCtx.map SpanCtx.traceId ≠ c5ParentCtxAfterLog.map SpanCtx.traceId := by
  refine ⟨by decide, by decide, by decide⟩

/-- C7: WithField with an empty key leaves the handle unchanged. -/
theorem c7_withField_empty (l : Eotel) (v : GoVal) : l.WithField "" v = l := by
  simp [Eotel.WithField]

/-- C9: WithError with a nil error leaves the handle unchanged and forwards
nothing. -/
theorem c9_withError_nil (cfg : Config) (l : Eotel) :
    l.WithError cfg none = (l, []) := rfl

/-- C4 (the code, evaluated at the failing input): a panic recovered in a
request whose context carries no handle drives RecoverPanic through the
Noop fallback, whose nil tracer makes the logging call raise a new runtime
panic that escapes the deferred recovery — contradicting "never re-raise". -/
theorem c4_recover_repanics :
    RecoverPanic cfg0 none none (some "boom") sim00 =
      Except.error nilTracerPanic := rfl

/-- C10 (the code, evaluated at the failing input): FromContext does fall
back to a non-nil Noop handle, but a logging call on that fallback handle
raises a runtime panic through the nil tracer — contradicting "never
throws or panics". -/
theorem c10_fallback_log_panics :
    FromContext none "req" 7 = Noop "req" 7
    ∧ (FromContext none "req" 7).log cfg0 "info" "x" sim00 =
        Except.error nilTracerPanic :=
  ⟨rfl, rfl⟩

end EotelSpec
